import Mathlib

/-
Verification of the zeabur vscode-extension deployment core
(src/src/extension.ts), as a shallow embedding in Lean 4.

Remote calls (GraphQL queries and mutations, file transport) are modeled
by oracle values describing the response each call would receive; file
system state is modeled by explicit values (the parsed config record, the
gitignore file content). Side effects relevant to the claims (control
plane calls, the addDomain mutation, the unlink of the archive file) are
recorded in explicit traces.
-/

namespace Zeabur

/- ## Ignore-rule composition and glob matching (compressDirectory, extension.ts 131-158)

The source builds a pattern list and hands it to archive.glob as the
ignore option; a relative path is excluded from the archive when it
matches at least one pattern. The matcher below implements the glob
dialect these patterns use: path segments separated by slashes, a
doubled star segment matching any number of segments, a single star
matching any run of characters within one segment, other characters
literal. The dot option is set in the source, so dotfiles are enumerated
like any other file and only the ignore list can exclude them. -/

def splitOnChar (sep : Char) : List Char → List (List Char)
  | [] => [[]]
  | c :: cs =>
    let r := splitOnChar sep cs
    if c = sep then [] :: r
    else
      match r with
      | [] => [[c]]
      | seg :: rest => (c :: seg) :: rest

def globSegMatch : List Char → List Char → Bool
  | [], s => s.isEmpty
  | '*' :: ps, s => s.tails.any fun t => globSegMatch ps t
  | _ :: _, [] => false
  | p :: ps, c :: cs => p == c && globSegMatch ps cs

def globMatch : List (List Char) → List (List Char) → Bool
  | [], path => path.isEmpty
  | seg :: ps, path =>
    if seg = ['*', '*'] then path.tails.any fun t => globMatch ps t
    else
      match path with
      | [] => false
      | s :: ss => globSegMatch seg s && globMatch ps ss

/- Built-in exclusions, extension.ts line 143:
let ignorePatterns = four glob patterns covering node_modules, .git,
.zeabur and venv directories at any depth. -/
def builtinIgnorePatterns : List (List Char) :=
  ["**/node_modules/**".data, "**/.git/**".data, "**/.zeabur/**".data, "**/venv/**".data]

/- One line of the gitignore file survives the filter on extension.ts
line 146 when it is not all-whitespace (JS trim truthiness), does not
start with the hash character, and does not contain an exclamation mark
anywhere (JS includes). -/
def startsWithChar (c : Char) : List Char → Bool
  | [] => false
  | x :: _ => x == c

def keepIgnoreLine (line : List Char) : Bool :=
  !(line.all Char.isWhitespace) && !(startsWithChar '#' line) && !(line.contains '!')

/- Supplementary patterns: gitignore content split on newlines, filtered. -/
def supplementaryPatterns (content : String) : List (List Char) :=
  (splitOnChar '\n' content.data).filter keepIgnoreLine

/- Full pattern list: built-ins, then (when a gitignore file exists) the
surviving gitignore lines appended (extension.ts lines 143-147). -/
def ignorePatterns (gitignore : Option String) : List (List Char) :=
  match gitignore with
  | none => builtinIgnorePatterns
  | some content => builtinIgnorePatterns ++ supplementaryPatterns content

def isIgnored (patterns : List (List Char)) (path : List Char) : Bool :=
  patterns.any fun pat => globMatch (splitOnChar '/' pat) (splitOnChar '/' path)

/- A workspace file path lands in the archive exactly when no ignore
pattern matches it (archive.glob with the ignore option, dot true,
extension.ts lines 150-154). -/
def includedInArchive (gitignore : Option String) (path : List Char) : Bool :=
  !(isIgnored (ignorePatterns gitignore) path)

/- ## The title slug (convertTitle, extension.ts 385-387)

The source replaces every UTF-16 unit outside the ASCII alphanumeric
ranges by a hyphen and lowercases the result. Characters are compared
through their code points; an astral character is two units in JS and
one scalar here, but both sides map every non-alphanumeric unit to a
hyphen, so the produced character set is identical. -/

def isAsciiAlphanumeric (c : Char) : Bool :=
  (97 ≤ c.toNat && c.toNat ≤ 122) || (65 ≤ c.toNat && c.toNat ≤ 90) || (48 ≤ c.toNat && c.toNat ≤ 57)

def replaceNonAlnum (c : Char) : Char := if isAsciiAlphanumeric c then c else '-'

def convertTitle (title : String) : String :=
  String.mk (title.data.map fun c => (replaceNonAlnum c).toLower)

def isLowerAlnumOrHyphen (c : Char) : Bool :=
  (97 ≤ c.toNat && c.toNat ≤ 122) || (48 ≤ c.toNat && c.toNat ≤ 57) || c == '-'

/- ## GraphQL request layer (graphqlRequest, extension.ts 172-201)

A transport failure is rethrown. A transport success yields the parsed
response, a record of an optional data payload and a list of error
messages. When the first error message equals the permission-denied text
the function itself shows the re-authentication prompt; in every
transport-success case it then returns the response unchanged. -/

structure GqlResponse (α : Type) where
  data : Option α
  errors : List String
deriving DecidableEq

structure GraphqlOutcome (α : Type) where
  result : Except String (GqlResponse α)
  promptedReauth : Bool

def promptCondition (errors : List String) : Bool :=
  match errors with
  | [] => false
  | e :: _ => e == "Permission denied"

def graphqlRequest {α : Type} (transport : Except String (GqlResponse α)) : GraphqlOutcome α :=
  match transport with
  | Except.error e => ⟨Except.error e, false⟩
  | Except.ok resp => ⟨Except.ok resp, promptCondition resp.errors⟩

/- Reading errors[0].message in JS: with a nonempty error list this is
the first message; with an empty or absent list the access itself throws
a TypeError, modeled by the fixed message below. -/
def firstErrorMessage (errors : List String) : String :=
  match errors with
  | [] => "TypeError: Cannot read properties of undefined"
  | e :: _ => e

/- createTemporaryProject (extension.ts 228-242): issue the mutation, and
when the response carries no data, throw an error built from the first
reported message. -/
def createTemporaryProject (transport : Except String (GqlResponse String)) : Except String String :=
  match (graphqlRequest transport).result with
  | Except.error e => Except.error e
  | Except.ok resp =>
    match resp.data with
    | none => Except.error (firstErrorMessage resp.errors)
    | some projectID => Except.ok projectID

/- ## Provisioning (getOrCreateProjectAndService, extension.ts 203-226)

The config file is modeled as a parsed record with two optional string
fields; absence of the file is the none case. JS truthiness of a field
requires it to be present and nonempty. The backend oracle gives the
outcome of the two creation mutations; the returned triple is the
result, the list of control plane calls issued, and the config record
after the call. -/

structure ConfigFile where
  projectID : Option String
  serviceID : Option String
deriving DecidableEq

def truthy : Option String → Bool
  | none => false
  | some s => s != ""

inductive ControlPlaneCall where
  | createTemporaryProject : ControlPlaneCall
  | createService (projectID serviceName : String) : ControlPlaneCall
deriving DecidableEq

structure ProvisionResult where
  projectID : String
  serviceID : String
  justCreated : Bool
deriving DecidableEq

structure ProvisionBackend where
  createTemporaryProjectResult : Except String String
  createServiceResult : String → String → Except String String

/- The fall-through path of getOrCreateProjectAndService: create a
temporary project, then a service in it, write both ids to the config
file, return them with justCreated true. A thrown error from either
mutation propagates and the config file keeps its prior content. -/
def provisionFresh (serviceName : String) (b : ProvisionBackend) (orig : Option ConfigFile) :
    Except String ProvisionResult × List ControlPlaneCall × Option ConfigFile :=
  match b.createTemporaryProjectResult with
  | Except.error e => (Except.error e, [ControlPlaneCall.createTemporaryProject], orig)
  | Except.ok projectID =>
    match b.createServiceResult projectID serviceName with
    | Except.error e =>
      (Except.error e,
       [ControlPlaneCall.createTemporaryProject, ControlPlaneCall.createService projectID serviceName],
       orig)
    | Except.ok serviceID =>
      (Except.ok ⟨projectID, serviceID, true⟩,
       [ControlPlaneCall.createTemporaryProject, ControlPlaneCall.createService projectID serviceName],
       some ⟨some projectID, some serviceID⟩)

def getOrCreateProjectAndService (config : Option ConfigFile) (serviceName : String)
    (b : ProvisionBackend) :
    Except String ProvisionResult × List ControlPlaneCall × Option ConfigFile :=
  match config with
  | some cfg =>
    if truthy cfg.projectID && truthy cfg.serviceID then
      (Except.ok ⟨cfg.projectID.getD "", cfg.serviceID.getD "", false⟩, [], some cfg)
    else provisionFresh serviceName b (some cfg)
  | none => provisionFresh serviceName b none

/- ## Domain resolution (getDomainOfService 300-335, createDomain 279-298,
the domain step of deploy 371-377, generateRandomString 389-397)

The backend oracle describes the response each of the three remote
operations would receive: the environments query for the project, the
domains query for a given environment id, and the addDomain mutation for
a given requested domain name. Randomness is an oracle giving the six
character choices of generateRandomString; the JS expression floor of
random times 26 always lands in 0 to 25, hence the Fin 26 codomain. -/

inductive DomainCall where
  | getEnvironments : DomainCall
  | getDomains (environmentID : String) : DomainCall
  | addDomain (domain : String) (isGenerated : Bool) : DomainCall
deriving DecidableEq

structure DomainBackend where
  envResponse : Except String (GqlResponse (List String))
  domainsResponse : String → Except String (GqlResponse (List String))
  addDomainResponse : String → Except String (GqlResponse String)

/- getDomainOfService: fetch the environments of the project and read
data.environments without first checking that data exists, so a missing
payload raises a TypeError; an empty environment list throws; then query
the domains of the service in the first environment; a missing payload
throws the first reported error message; an empty domain list throws;
otherwise the first domain is returned. -/
def getDomainOfService (b : DomainBackend) : Except String String × List DomainCall :=
  match (graphqlRequest b.envResponse).result with
  | Except.error e => (Except.error e, [DomainCall.getEnvironments])
  | Except.ok envResp =>
    match envResp.data with
    | none =>
      (Except.error "TypeError: Cannot read properties of undefined", [DomainCall.getEnvironments])
    | some [] =>
      (Except.error "No environments found for the project", [DomainCall.getEnvironments])
    | some (environmentID :: _) =>
      match (graphqlRequest (b.domainsResponse environmentID)).result with
      | Except.error e =>
        (Except.error e, [DomainCall.getEnvironments, DomainCall.getDomains environmentID])
      | Except.ok domResp =>
        match domResp.data with
        | none =>
          (Except.error (firstErrorMessage domResp.errors),
           [DomainCall.getEnvironments, DomainCall.getDomains environmentID])
        | some [] =>
          (Except.error "No domain found for the service",
           [DomainCall.getEnvironments, DomainCall.getDomains environmentID])
        | some (d :: _) =>
          (Except.ok d, [DomainCall.getEnvironments, DomainCall.getDomains environmentID])

def lowercaseLetters : List Char := "abcdefghijklmnopqrstuvwxyz".data

/- generateRandomString: six characters, each picked from the lowercase
alphabet by the random oracle; the getD default is unreachable because
the index is below 26, the length of the alphabet. -/
def generateRandomString (r : Fin 6 → Fin 26) : String :=
  String.mk ((List.finRange 6).map fun i => lowercaseLetters.getD (r i).val 'a')

/- The domain variable of the addDomain mutation: the explicit name when
one is supplied, otherwise the service name with the random suffix. -/
def requestedDomainName (serviceName : String) (domainName : Option String)
    (r : Fin 6 → Fin 26) : String :=
  match domainName with
  | some d => d
  | none => serviceName ++ generateRandomString r

/- createDomain: issue addDomain with isGenerated true; when the response
carries no data, throw an error built from the first reported message. -/
def createDomain (b : DomainBackend) (serviceName : String) (domainName : Option String)
    (r : Fin 6 → Fin 26) : Except String String × List DomainCall :=
  match (graphqlRequest (b.addDomainResponse (requestedDomainName serviceName domainName r))).result with
  | Except.error e =>
    (Except.error e, [DomainCall.addDomain (requestedDomainName serviceName domainName r) true])
  | Except.ok resp =>
    match resp.data with
    | none =>
      (Except.error (firstErrorMessage resp.errors),
       [DomainCall.addDomain (requestedDomainName serviceName domainName r) true])
    | some d =>
      (Except.ok d, [DomainCall.addDomain (requestedDomainName serviceName domainName r) true])

/- The domain step at the end of deploy (extension.ts 371-377): try the
lookup; on any thrown error fall back to createDomain with no explicit
name; an error from the fallback propagates to the enclosing handler. -/
def deployDomainStep (b : DomainBackend) (serviceName : String) (r : Fin 6 → Fin 26) :
    Except String String × List DomainCall :=
  match getDomainOfService b with
  | (Except.ok domain, calls) => (Except.ok domain, calls)
  | (Except.error _, calls) =>
    match createDomain b serviceName none r with
    | (res, calls2) => (res, calls ++ calls2)

def isAddDomainCall : DomainCall → Bool
  | DomainCall.addDomain _ _ => true
  | _ => false

def addDomainCount (calls : List DomainCall) : Nat := (calls.filter isAddDomainCall).length

def exceptIsOk {ε α : Type} : Except ε α → Bool
  | Except.ok _ => true
  | Except.error _ => false

/- Specification-side characterization of a fully successful lookup:
transport success with a present payload and a nonempty environment
list, then transport success with a present payload and a nonempty
domain list for the first environment. Anything else makes the lookup
throw. -/
def lookupSucceeds (b : DomainBackend) : Bool :=
  match b.envResponse with
  | Except.error _ => false
  | Except.ok envResp =>
    match envResp.data with
    | none => false
    | some [] => false
    | some (environmentID :: _) =>
      match b.domainsResponse environmentID with
      | Except.error _ => false
      | Except.ok domResp =>
        match domResp.data with
        | none => false
        | some [] => false
        | some (_ :: _) => true

/- ## The deploy command of activate (extension.ts 27-52)

The command body after the archive path is prepared: an outer try whose
finally deletes the archive file, an outer catch that shows the error,
and inside the progress callback an inner try around compressing,
reading the archive and uploading, whose catch logs, shows and rethrows.
Each step outcome is an oracle; the trace records observable effects in
order. -/

inductive DeployEvent where
  | compress : DeployEvent
  | readZip : DeployEvent
  | deployCall : DeployEvent
  | showInfo : DeployEvent
  | openDashboard : DeployEvent
  | logError (msg : String) : DeployEvent
  | showError (msg : String) : DeployEvent
  | unlinkArchive : DeployEvent
deriving DecidableEq

abbrev TracedRun (α : Type) := List DeployEvent × Except String α

/- Sequencing of awaited steps: a thrown error short-circuits. -/
def seqRun {α β : Type} (x : TracedRun α) (f : α → TracedRun β) : TracedRun β :=
  match x with
  | (tr, Except.error e) => (tr, Except.error e)
  | (tr, Except.ok a) =>
    match f a with
    | (tr2, r) => (tr ++ tr2, r)

/- A JS try-catch: the handler runs exactly on a thrown error. -/
def catchRun {α : Type} (x : TracedRun α) (handler : String → TracedRun α) : TracedRun α :=
  match x with
  | (tr, Except.ok a) => (tr, Except.ok a)
  | (tr, Except.error e) =>
    match handler e with
    | (tr2, r) => (tr ++ tr2, r)

/- A JS try-finally whose finalizer performs effects and does not throw:
the finalizer trace runs after the body on every path and the body
completion stands. -/
def finallyRun {α : Type} (x : TracedRun α) (finalizer : List DeployEvent) : TracedRun α :=
  (x.1 ++ finalizer, x.2)

structure DeployOracle where
  compressResult : Except String Unit
  readZipResult : Except String Unit
  deployResult : Except String String

def deployCommandRun (o : DeployOracle) : TracedRun Unit :=
  finallyRun
    (catchRun
      (catchRun
        (seqRun ([DeployEvent.compress], o.compressResult) fun _ =>
          seqRun ([DeployEvent.readZip], o.readZipResult) fun _ =>
            seqRun ([DeployEvent.deployCall], o.deployResult) fun _ =>
              ([DeployEvent.showInfo, DeployEvent.openDashboard], Except.ok ()))
        (fun e => ([DeployEvent.logError e, DeployEvent.showError e], Except.error e)))
      (fun e => ([DeployEvent.showError e], Except.ok ())))
    [DeployEvent.unlinkArchive]

def isUnlinkEvent : DeployEvent → Bool
  | DeployEvent.unlinkArchive => true
  | _ => false

def unlinkCount (tr : List DeployEvent) : Nat := (tr.filter isUnlinkEvent).length

/- ## Concrete instances used by counterexamples and witnesses -/

def witnessConfig : ConfigFile := ⟨some "proj-1", some "svc-1"⟩

def incompleteConfig : ConfigFile := ⟨some "proj-old", none⟩

def backendA : ProvisionBackend := ⟨Except.ok "p-new", fun _ _ => Except.ok "s-new"⟩

def backendDown : ProvisionBackend :=
  ⟨Except.error "network down", fun _ _ => Except.error "network down"⟩

def permissionDeniedResponse : GqlResponse String := ⟨none, ["Permission denied"]⟩

def genericFailureResponse : GqlResponse String := ⟨none, ["internal server error"]⟩

def r0 : Fin 6 → Fin 26 := fun _ => 0

/- A backend whose state holds an existing domain for every environment
of the service, while the environments query itself fails in transport. -/
def lookupFailBackend : DomainBackend :=
  ⟨Except.error "fetch failed",
   fun _ => Except.ok ⟨some ["foo.zeabur.app"], []⟩,
   fun d => Except.ok ⟨some d, []⟩⟩

/- A backend where the lookup fully succeeds. -/
def domainOkBackend : DomainBackend :=
  ⟨Except.ok ⟨some ["env-1"], []⟩,
   fun _ => Except.ok ⟨some ["foo.zeabur.app"], []⟩,
   fun d => Except.ok ⟨some d, []⟩⟩

/- ## Theorems -/

/-- Claim C1, counterexample. The claim lists env directories and
dot-prefixed directories among the built-in exclusions that packaging
always applies. In compressDirectory of src/src/extension.ts the
built-in list holds only the node_modules, .git, .zeabur and venv
patterns; with an empty gitignore file, the paths env/main.py and
.cache/data.txt match no pattern and are packaged into the archive, so
the claim is false as stated. -/
theorem c1_counterexample :
    includedInArchive (some "") "env/main.py".data = true ∧
    includedInArchive (some "") ".cache/data.txt".data = true := by decide

/-- Claim C1, amended: for every ignore-file content, packaging excludes
every path matching one of the built-in exclusion patterns of this
implementation (node_modules, .git, .zeabur and venv directories),
regardless of what the ignore file contains; lines expressing negation
are filtered out and the remaining lines can only add exclusion
patterns, so re-inclusion attempts are inert. -/
theorem c1_builtin_exclusions_inert (gitignore : Option String) (path : List Char)
    (h : isIgnored builtinIgnorePatterns path = true) :
    includedInArchive gitignore path = false := by
  cases gitignore with
  | none => simp [includedInArchive, ignorePatterns, h]
  | some content =>
    simp only [includedInArchive, ignorePatterns, isIgnored, List.any_append,
      Bool.not_eq_false', Bool.or_eq_true]
    exact Or.inl (by simpa [isIgnored] using h)

/-- Claim C1 witness: a path under node_modules is matched by the
built-in patterns, and stays excluded even when the gitignore file
consists of re-inclusion attempts against the built-ins. -/
theorem c1_witness :
    isIgnored builtinIgnorePatterns "node_modules/pkg/index.js".data = true ∧
    includedInArchive (some "!node_modules/\n!.git/") "node_modules/pkg/index.js".data = false :=
  ⟨by decide,
   c1_builtin_exclusions_inert (some "!node_modules/\n!.git/") "node_modules/pkg/index.js".data
     (by decide)⟩

/-- Claim C2, counterexample. The claim says exactly the blank,
comment-prefixed and negation lines are dropped. The filter on
extension.ts line 146 also drops any line containing an exclamation mark
in a non-leading position: the line consisting of the characters a, bang,
b is neither blank nor comment-prefixed nor a negation, yet it is
dropped from the rule set. -/
theorem c2_counterexample :
    keepIgnoreLine "a!b".data = false ∧
    "a!b".data.all Char.isWhitespace = false ∧
    startsWithChar '#' "a!b".data = false ∧
    startsWithChar '!' "a!b".data = false := by decide

/-- Claim C2, amended: when composing the supplementary rule set from
the ignore file, exactly the lines that are blank (all whitespace),
start with the hash character, or contain an exclamation mark anywhere
(a superset of the negation lines) are dropped; every other line becomes
a pattern in the rule set. -/
theorem c2_supplementary_rule_set (content : String) (line : List Char) :
    line ∈ supplementaryPatterns content ↔
      line ∈ splitOnChar '\n' content.data ∧
      line.all Char.isWhitespace = false ∧
      startsWithChar '#' line = false ∧
      line.contains '!' = false := by
  simp [supplementaryPatterns, List.mem_filter, keepIgnoreLine, and_assoc]

/-- Claim C2 witness: a plain pattern line from a file that also holds a
negation line survives into the supplementary rule set. -/
theorem c2_witness : "build/".data ∈ supplementaryPatterns "build/\n!keep.txt" :=
  (c2_supplementary_rule_set "build/\n!keep.txt" "build/".data).mpr (by decide)

/-- Helper: lowercasing an ASCII alphanumeric character yields a
lowercase ASCII alphanumeric character. -/
theorem toLower_alnum (c : Char) (h : isAsciiAlphanumeric c = true) :
    isLowerAlnumOrHyphen c.toLower = true := by
  show isLowerAlnumOrHyphen
      (if c.toNat ≥ 65 ∧ c.toNat ≤ 90 then Char.ofNat (c.toNat + 32) else c) = true
  split
  case isTrue hcond =>
    obtain ⟨n, hn⟩ : ∃ n, c.toNat = n := ⟨_, rfl⟩
    rw [hn] at hcond ⊢
    clear hn
    obtain ⟨h1, h2⟩ := hcond
    have key : ∀ m : Fin 91, 65 ≤ m.val →
        isLowerAlnumOrHyphen (Char.ofNat (m.val + 32)) = true := by decide
    exact key ⟨n, by omega⟩ h1
  case isFalse hcond =>
    simp only [isAsciiAlphanumeric, Bool.or_eq_true, Bool.and_eq_true, decide_eq_true_eq] at h
    simp only [isLowerAlnumOrHyphen, Bool.or_eq_true, Bool.and_eq_true, decide_eq_true_eq]
    have hx : 97 ≤ c.toNat ∧ c.toNat ≤ 122 ∨ 48 ≤ c.toNat ∧ c.toNat ≤ 57 := by omega
    rcases hx with hx | hx
    · exact Or.inl (Or.inl hx)
    · exact Or.inl (Or.inr hx)

/-- Claim C3: convertTitle is total by construction, and every character
of its output is a lowercase ASCII alphanumeric or a hyphen, the output
being the input with every character outside the ASCII alphanumeric set
replaced by a hyphen and the result lowercased. -/
theorem c3_convertTitle_output_charset (title : String) (c : Char)
    (hc : c ∈ (convertTitle title).data) : isLowerAlnumOrHyphen c = true := by
  have hdata : (convertTitle title).data = title.data.map fun x => (replaceNonAlnum x).toLower := rfl
  rw [hdata] at hc
  obtain ⟨c₀, _, rfl⟩ := List.mem_map.mp hc
  unfold replaceNonAlnum
  split
  case isTrue halnum => exact toLower_alnum c₀ halnum
  case isFalse => decide

/-- Claim C3 witness: the slug of a mixed-script title contains the
lowercase letter m, and that character is in the allowed set. -/
theorem c3_witness : isLowerAlnumOrHyphen 'm' = true :=
  c3_convertTitle_output_charset "My App 測試" 'm' (by decide)

/-- Claim C4: when the identity record holds both a projectID and a
serviceID, getOrCreateProjectAndService returns that stored pair with
justCreated false, issues no control plane call, and leaves the record
unchanged; the result does not depend on the backend at all, so a second
call in the same state returns the identical identifiers. -/
theorem c4_provisioning_idempotent (cfg : ConfigFile) (serviceName : String)
    (b b2 : ProvisionBackend) (p s : String)
    (hp : cfg.projectID = some p) (hpne : p ≠ "")
    (hs : cfg.serviceID = some s) (hsne : s ≠ "") :
    getOrCreateProjectAndService (some cfg) serviceName b =
      (Except.ok ⟨p, s, false⟩, [], some cfg) ∧
    getOrCreateProjectAndService (some cfg) serviceName b2 =
      getOrCreateProjectAndService (some cfg) serviceName b := by
  have hcond : (truthy (some p) && truthy (some s)) = true := by
    simp [truthy, hpne, hsne]
  constructor
  · simp [getOrCreateProjectAndService, hp, hs, hcond]
  · simp [getOrCreateProjectAndService, hp, hs, hcond]

/-- Claim C4 witness: a config record holding both identifiers is
returned as-is with no calls, identically under a live backend and under
a backend whose every call would fail. -/
theorem c4_witness :
    getOrCreateProjectAndService (some witnessConfig) "app" backendA =
      (Except.ok ⟨"proj-1", "svc-1", false⟩, [], some witnessConfig) ∧
    getOrCreateProjectAndService (some witnessConfig) "app" backendDown =
      getOrCreateProjectAndService (some witnessConfig) "app" backendA :=
  c4_provisioning_idempotent witnessConfig "app" backendA backendDown "proj-1" "svc-1"
    rfl (by decide) rfl (by decide)

/-- Claim C9: a persisted identity record holding only one of the two
identifiers fails the truthiness check of both fields, so provisioning
falls through to the creation path: it issues the two creation calls and
overwrites the record with the freshly created pair, discarding the
partial record. -/
theorem c9_incomplete_record_reprovisions (cfg : ConfigFile) (serviceName : String)
    (b : ProvisionBackend) (p s : String)
    (hone : truthy cfg.projectID ≠ truthy cfg.serviceID)
    (hp : b.createTemporaryProjectResult = Except.ok p)
    (hs : b.createServiceResult p serviceName = Except.ok s) :
    getOrCreateProjectAndService (some cfg) serviceName b =
      (Except.ok ⟨p, s, true⟩,
       [ControlPlaneCall.createTemporaryProject, ControlPlaneCall.createService p serviceName],
       some ⟨some p, some s⟩) := by
  have hcond : (truthy cfg.projectID && truthy cfg.serviceID) = false := by
    cases h1 : truthy cfg.projectID <;> cases h2 : truthy cfg.serviceID <;> simp_all
  simp [getOrCreateProjectAndService, hcond, provisionFresh, hp, hs]

/-- Claim C9 witness: a record with a projectID but no serviceID is
discarded and replaced by the freshly provisioned pair. -/
theorem c9_witness :
    getOrCreateProjectAndService (some incompleteConfig) "app" backendA =
      (Except.ok ⟨"p-new", "s-new", true⟩,
       [ControlPlaneCall.createTemporaryProject, ControlPlaneCall.createService "p-new" "app"],
       some ⟨some "p-new", some "s-new"⟩) :=
  c9_incomplete_record_reprovisions incompleteConfig "app" backendA "p-new" "s-new"
    (by decide) rfl rfl

/-- Claim C6, counterexample. The claim says a permission-denied
condition is exposed to the calling layer as a distinguished error. On a
permission-denied response, graphqlRequest raises the re-authentication
prompt itself and then returns the response normally rather than as any
error value; a caller such as createTemporaryProject, finding no data,
throws the same plain error constructor it throws for every other
backend failure, carrying only the message text. No distinguished
permission-denied error value exists in the core. -/
theorem c6_counterexample :
    (graphqlRequest (Except.ok permissionDeniedResponse)).result =
      Except.ok permissionDeniedResponse ∧
    (graphqlRequest (Except.ok permissionDeniedResponse)).promptedReauth = true ∧
    createTemporaryProject (Except.ok permissionDeniedResponse) =
      Except.error "Permission denied" ∧
    createTemporaryProject (Except.ok genericFailureResponse) =
      Except.error "internal server error" :=
  ⟨rfl, rfl, rfl, rfl⟩

/-- Claim C6, amended: the permission-denied condition is detected
inside graphqlRequest by string comparison of the first error message,
and the re-authentication prompt is raised there, in the request layer
itself; the response is then returned unchanged, so callers observe only
generic errors carrying the backend message text. -/
theorem c6_prompt_in_request_layer {α : Type} (t : Except String (GqlResponse α)) :
    (graphqlRequest t).result = t ∧
    ((graphqlRequest t).promptedReauth = true ↔
      ∃ resp rest, t = Except.ok resp ∧ resp.errors = "Permission denied" :: rest) := by
  cases t with
  | error e => simp [graphqlRequest]
  | ok resp =>
    refine ⟨rfl, ?_⟩
    show promptCondition resp.errors = true ↔ _
    cases herr : resp.errors with
    | nil =>
      simp only [promptCondition, Except.ok.injEq]
      constructor
      · intro h
        exact absurd h (by decide)
      · rintro ⟨resp2, rest, rfl, herrs⟩
        rw [herr] at herrs
        exact absurd herrs (by simp)
    | cons e es =>
      simp only [promptCondition, beq_iff_eq, Except.ok.injEq]
      constructor
      · intro h
        exact ⟨resp, es, rfl, by rw [herr, h]⟩
      · rintro ⟨resp2, rest, rfl, herrs⟩
        rw [herr] at herrs
        exact (List.cons.injEq _ _ _ _ ▸ herrs).1

/-- Claim C6 witness: the prompt fires exactly on the permission-denied
response shape. -/
theorem c6_witness :
    (graphqlRequest (Except.ok permissionDeniedResponse)).promptedReauth = true :=
  (c6_prompt_in_request_layer (Except.ok permissionDeniedResponse)).2.mpr
    ⟨permissionDeniedResponse, [], rfl, rfl⟩

/-- Helper: graphqlRequest returns the transport outcome unchanged. -/
theorem graphqlRequest_result {α : Type} (t : Except String (GqlResponse α)) :
    (graphqlRequest t).result = t := by cases t <;> rfl

/-- Helper: the domain lookup issues no addDomain call on any path. -/
theorem getDomainOfService_no_addDomain (b : DomainBackend) :
    addDomainCount (getDomainOfService b).2 = 0 := by
  unfold getDomainOfService
  repeat' split
  all_goals simp [addDomainCount, isAddDomainCall]

/-- Helper: createDomain issues exactly one addDomain call, for the
requested domain name with the auto-generated flag, on every path. -/
theorem createDomain_trace (b : DomainBackend) (serviceName : String)
    (domainName : Option String) (r : Fin 6 → Fin 26) :
    (createDomain b serviceName domainName r).2 =
      [DomainCall.addDomain (requestedDomainName serviceName domainName r) true] := by
  unfold createDomain
  repeat' split
  all_goals rfl

/-- Claim C5, amended: the lookup itself never issues a create call;
when the lookup succeeds (in particular whenever it observes an existing
domain) the deploy domain step returns its result with zero addDomain
calls; when the lookup throws, the step falls back to creation exactly
once, and the outcome of that single creation attempt, error included,
is the outcome of the step, with no further retry. The unconditional
reading of the claim, that no create call happens whenever a domain
exists in the backend, fails: a lookup that throws for another reason
still triggers creation, see the counterexample. -/
theorem c5_lookup_gates_creation (b : DomainBackend) (serviceName : String) (r : Fin 6 → Fin 26) :
    addDomainCount (getDomainOfService b).2 = 0 ∧
    (∀ d, (getDomainOfService b).1 = Except.ok d →
      deployDomainStep b serviceName r = (Except.ok d, (getDomainOfService b).2)) ∧
    ∀ e, (getDomainOfService b).1 = Except.error e →
      addDomainCount (deployDomainStep b serviceName r).2 = 1 ∧
      (deployDomainStep b serviceName r).1 = (createDomain b serviceName none r).1 := by
  refine ⟨getDomainOfService_no_addDomain b, ?_, ?_⟩
  · intro d h
    unfold deployDomainStep
    generalize hgd : getDomainOfService b = gd at h ⊢
    rcases gd with ⟨res, calls⟩
    simp only [Prod.fst] at h
    subst h
    rfl
  · intro e h
    have hc : addDomainCount (getDomainOfService b).2 = 0 := getDomainOfService_no_addDomain b
    have ht := createDomain_trace b serviceName none r
    unfold deployDomainStep
    generalize hgd : getDomainOfService b = gd at h hc ⊢
    rcases gd with ⟨res, calls⟩
    simp only [Prod.fst] at h
    subst h
    rcases hcd : createDomain b serviceName none r with ⟨res2, calls2⟩
    rw [hcd] at ht
    simp only [Prod.snd] at ht hc
    constructor
    · have hnil : calls.filter isAddDomainCall = [] :=
        List.eq_nil_of_length_eq_zero hc
      simp [addDomainCount, List.filter_append, ht, isAddDomainCall, hnil]
    · simp

/-- Claim C5 counterexample. In the backend lookupFailBackend the
domains query for every environment reports the existing domain
foo.zeabur.app, so at least one domain exists for the service and
environment pair; yet because the environments query fails in
transport, the lookup throws and the deploy domain step issues an
addDomain create call, duplicating the existing domain. -/
theorem c5_counterexample :
    lookupFailBackend.domainsResponse "env-1" =
      Except.ok ⟨some ["foo.zeabur.app"], []⟩ ∧
    addDomainCount (deployDomainStep lookupFailBackend "svc" r0).2 = 1 := by
  constructor
  · rfl
  · decide

/-- Claim C5 witness: with a fully successful lookup the step returns
the existing domain and the trace holds no addDomain call; with the
failing lookup of the counterexample backend exactly one create call
happens. -/
theorem c5_witness :
    deployDomainStep domainOkBackend "svc" r0 =
      (Except.ok "foo.zeabur.app", [DomainCall.getEnvironments, DomainCall.getDomains "env-1"]) ∧
    (deployDomainStep lookupFailBackend "svc" r0).1 =
      (createDomain lookupFailBackend "svc" none r0).1 :=
  ⟨(c5_lookup_gates_creation domainOkBackend "svc" r0).2.1 "foo.zeabur.app" rfl,
   ((c5_lookup_gates_creation lookupFailBackend "svc" r0).2.2 "fetch failed" rfl).2⟩

/-- Helper: every character picked from the lowercase alphabet by an
index below 26 is a lowercase ASCII letter. -/
theorem lowercase_getD_range :
    ∀ j : Fin 26, 97 ≤ (lowercaseLetters.getD j.val 'a').toNat ∧
      (lowercaseLetters.getD j.val 'a').toNat ≤ 122 := by decide

/-- Claim C7: when no explicit domain name is supplied, the name sent to
addDomain is the sanitized slug of the desired name followed by the
random suffix, with the auto-generated flag set; the suffix always has
exactly 6 characters, each a lowercase ASCII letter. -/
theorem c7_generated_domain_name (b : DomainBackend) (title : String) (r : Fin 6 → Fin 26) :
    (createDomain b (convertTitle title) none r).2 =
      [DomainCall.addDomain (convertTitle title ++ generateRandomString r) true] ∧
    (generateRandomString r).length = 6 ∧
    ∀ c ∈ (generateRandomString r).data, 97 ≤ c.toNat ∧ c.toNat ≤ 122 := by
  refine ⟨?_, ?_, ?_⟩
  · rw [createDomain_trace]
    rfl
  · show ((List.finRange 6).map fun i => lowercaseLetters.getD (r i).val 'a').length = 6
    simp
  · intro c hc
    have hdata : (generateRandomString r).data =
        (List.finRange 6).map fun i => lowercaseLetters.getD (r i).val 'a' := rfl
    rw [hdata] at hc
    obtain ⟨i, _, rfl⟩ := List.mem_map.mp hc
    exact lowercase_getD_range (r i)

/-- Claim C7 witness: with the all-zero random oracle the suffix is six
letters a, and its first character is a lowercase ASCII letter. -/
theorem c7_witness : 97 ≤ Char.toNat 'a' ∧ Char.toNat 'a' ≤ 122 :=
  (c7_generated_domain_name lookupFailBackend "My App" r0).2.2 'a' (by decide)

/-- Helper: the lookup result is a success exactly in the fully
well-formed nonempty response shape. -/
theorem lookup_isOk_eq (b : DomainBackend) :
    exceptIsOk (getDomainOfService b).1 = lookupSucceeds b := by
  unfold getDomainOfService lookupSucceeds
  simp only [graphqlRequest_result]
  repeat' split
  all_goals simp_all [exceptIsOk]

/-- Claim C10: the deploy domain step issues an addDomain create call
exactly when the lookup throws, and the lookup succeeds exactly when
both queries succeed in transport with well-formed payloads and
nonempty lists; so creation is triggered by environment-lookup failure,
transport failure and malformed responses alike, not only by an empty
domain list. -/
theorem c10_create_iff_lookup_throws (b : DomainBackend) (serviceName : String)
    (r : Fin 6 → Fin 26) :
    exceptIsOk (getDomainOfService b).1 = lookupSucceeds b ∧
    addDomainCount (deployDomainStep b serviceName r).2 =
      (if lookupSucceeds b then 0 else 1) := by
  refine ⟨lookup_isOk_eq b, ?_⟩
  rw [← lookup_isOk_eq b]
  have hc : addDomainCount (getDomainOfService b).2 = 0 := getDomainOfService_no_addDomain b
  have ht := createDomain_trace b serviceName none r
  unfold deployDomainStep
  generalize hgd : getDomainOfService b = gd at hc ⊢
  rcases gd with ⟨res, calls⟩
  simp only [Prod.snd] at hc
  cases res with
  | ok d => simpa [exceptIsOk] using hc
  | error e =>
    rcases hcd : createDomain b serviceName none r with ⟨res2, calls2⟩
    rw [hcd] at ht
    simp only [Prod.snd] at ht
    have hnil : calls.filter isAddDomainCall = [] :=
      List.eq_nil_of_length_eq_zero hc
    simp [exceptIsOk, addDomainCount, List.filter_append, ht, isAddDomainCall, hnil]

/-- Claim C8: on every outcome of the compress, read and upload steps,
success, backend error or local exception alike, the deploy command
trace ends with the unlink of the transient archive file, and the unlink
happens exactly once. -/
theorem c8_archive_always_unlinked (o : DeployOracle) :
    (deployCommandRun o).1.getLast? = some DeployEvent.unlinkArchive ∧
    unlinkCount (deployCommandRun o).1 = 1 := by
  obtain ⟨cr, rr, dr⟩ := o
  cases cr <;> cases rr <;> cases dr <;>
    simp [deployCommandRun, seqRun, catchRun, finallyRun, unlinkCount, isUnlinkEvent,
      List.filter_append, List.getLast?_concat]

end Zeabur
